import Mathlib

/-!
Shallow embedding of tract's `Tensor` core (`src/data/src/tensor.rs`).

Modelling conventions:
* Machine integers are `Int` values; width-dependent wrapping is applied
  explicitly where the source performs an `as` conversion.
* IEEE floats are modelled symbolically by `FVal`: NaN, signed infinities,
  and exact finite values as rationals.  Width-dependent rounding is not
  modelled; no claim below depends on rounding.  IEEE comparison semantics
  (NaN is not equal to anything, including itself; `x - x = 0` for finite
  `x`) are modelled faithfully.
* The tensor's raw buffer is modelled as a flat `List Val` in row-major
  order; pointer arithmetic in the source (expressed in bytes, i.e.
  element stride times `size_of`) is modelled in element units.
* Fallible operations return `Except TErr`; the `anyhow` error messages of
  the source are represented by the structured constructors of `TErr`.
  Operations that can panic in a way a claim depends on return `Outcome`,
  which has a dedicated `crash` constructor for panics.
-/

namespace Tract

/-- The closed set of element kinds (`DatumType` in `datum.rs`), as
enumerated by the 15-way matches in `tensor.rs` (`Hash`, `stack_tensors`,
`cast_to_dt`). -/
inductive DatumType where
  | bool | i8 | i16 | i32 | i64 | u8 | u16 | u32 | u64
  | f16 | f32 | f64 | tdim | string | blob
deriving DecidableEq, Repr

/-- Modelled from the spec: copy-triviality per kind ("true for all
numeric/bool kinds, false for DimExpr/String/Blob which own heap data").
`DatumType::is_copy` itself lives in `datum.rs`, outside `src/`. -/
def DatumType.is_copy : DatumType → Bool
  | .tdim => false
  | .string => false
  | .blob => false
  | _ => true

/-- Modelled from the spec: which kinds are floats (`DatumType::is_float`
lives in `datum.rs`, outside `src/`). -/
def DatumType.is_float : DatumType → Bool
  | .f16 => true
  | .f32 => true
  | .f64 => true
  | _ => false

/-- Modelled from the spec: which kinds are integers (`DatumType::is_integer`
lives in `datum.rs`, outside `src/`). -/
def DatumType.is_integer : DatumType → Bool
  | .i8 => true
  | .i16 => true
  | .i32 => true
  | .i64 => true
  | .u8 => true
  | .u16 => true
  | .u32 => true
  | .u64 => true
  | _ => false

/-- Symbolic IEEE float value: NaN, a signed infinity, or an exact finite
value.  (`neg = true` denotes the negative infinity.) -/
inductive FVal where
  | nan
  | inf (neg : Bool)
  | fin (q : ℚ)
deriving DecidableEq, Repr

namespace FVal

/-- Model of `f32::is_nan`. -/
def isNan : FVal → Bool
  | .nan => true
  | _ => false

/-- Model of `f32::is_infinite`. -/
def isInf : FVal → Bool
  | .inf _ => true
  | _ => false

/-- Model of `f32::signum`: NaN for NaN, ±1 otherwise (the model has no negative
zero, so finite values use the rational sign with `signum 0 = 1` as for
IEEE `+0.0`). -/
def signum : FVal → FVal
  | .nan => .nan
  | .inf b => .fin (if b then -1 else 1)
  | .fin q => .fin (if q < 0 then -1 else 1)

/-- Model of `f32::abs`. -/
def abs : FVal → FVal
  | .nan => .nan
  | .inf _ => .inf false
  | .fin q => .fin |q|

/-- IEEE subtraction on the symbolic values (no rounding; `x - x = 0`
exactly for finite `x`, as in IEEE). -/
def sub : FVal → FVal → FVal
  | .nan, _ => .nan
  | _, .nan => .nan
  | .inf a, .inf b => if a = b then .nan else .inf a
  | .inf a, .fin _ => .inf a
  | .fin _, .inf b => .inf (!b)
  | .fin a, .fin b => .fin (a - b)

/-- IEEE addition on the symbolic values. -/
def add : FVal → FVal → FVal
  | .nan, _ => .nan
  | _, .nan => .nan
  | .inf a, .inf b => if a = b then .inf a else .nan
  | .inf a, .fin _ => .inf a
  | .fin _, .inf b => .inf b
  | .fin a, .fin b => .fin (a + b)

/-- IEEE multiplication on the symbolic values. -/
def mul : FVal → FVal → FVal
  | .nan, _ => .nan
  | _, .nan => .nan
  | .inf a, .inf b => .inf (a != b)
  | .inf a, .fin q => if q = 0 then .nan else .inf (a != decide (0 < q))
  | .fin q, .inf b => if q = 0 then .nan else .inf (b != decide (0 < q))
  | .fin a, .fin b => .fin (a * b)

/-- IEEE `<=`: false whenever either side is NaN. -/
def fle : FVal → FVal → Bool
  | .nan, _ => false
  | _, .nan => false
  | .inf a, .inf b => a || !b
  | .inf a, .fin _ => a
  | .fin _, .inf b => !b
  | .fin a, .fin b => a ≤ b

/-- IEEE `==`: false whenever either side is NaN (in particular
`nan == nan` is false). -/
def ieeeEq : FVal → FVal → Bool
  | .nan, _ => false
  | _, .nan => false
  | .inf a, .inf b => a = b
  | .fin a, .fin b => a = b
  | _, _ => false

end FVal

/-- Symbolic dimension expression (`TDim` in `dim.rs`): either a concrete
integer or an unresolved symbolic expression. -/
inductive TDimV where
  | lit (z : Int)
  | sym (name : String)
deriving DecidableEq, Repr

/-- A type-erased element value; the tensor's `dt` tag says how the
buffer's values are to be interpreted. -/
inductive Val where
  | vb (b : Bool)
  | vi (z : Int)
  | vf (f : FVal)
  | vs (s : String)
  | vdim (d : TDimV)
  | vblob (bytes : List Nat)
deriving DecidableEq, Repr

instance : Inhabited Val := ⟨.vi 0⟩

/-- Structured stand-ins for the `anyhow` error messages of the source. -/
inductive TErr where
  | shapeMismatch
  | dtMismatch
  | rangeLenMismatch
  | axisOutOfRange
  | kindMismatch
  | parseError (text : String) (target : DatumType)
  | unresolvedDim
  | unsupportedCast
  | indexOutOfRange
  | mismatchAt (idx : List Nat)
  | mismatch
deriving DecidableEq, Repr

/-- Result of an operation that may also panic (`crash`), used where a
claim depends on the panic/error distinction (ndarray's slicing
assertions). -/
inductive Outcome (α : Type) where
  | ok (a : α)
  | err (e : TErr)
  | crash (msg : String)
deriving DecidableEq, Repr

/-- The tensor model: kind tag, shape, strides (in elements) and the raw
buffer as a flat row-major list of values.  (`layout` and the raw pointer
are not modelled; allocation identity questions are handled per claim.) -/
structure Tensor where
  dt : DatumType
  shape : List Nat
  strides : List Int
  data : List Val
deriving DecidableEq, Repr

namespace Tensor

/-- Model of `Tensor::rank`. -/
def rank (t : Tensor) : Nat := t.shape.length

/-- Model of `Tensor::len`: product of the shape. -/
def len (t : Tensor) : Nat := t.shape.prod

end Tensor

/-- Model of `compute_natural_stride_to`, translated with its case structure
(ranks 0–4 special-cased, general loop beyond). -/
def compute_natural_stride_to (shape : List Nat) : List Int :=
  match shape with
  | [] => []
  | [_] => [1]
  | [_, s1] => [(s1 : Int), 1]
  | [_, s1, s2] => [((s1 * s2 : Nat) : Int), (s2 : Int), 1]
  | [_, s1, s2, s3] =>
      [((s1 * s2 * s3 : Nat) : Int), ((s2 * s3 : Nat) : Int), (s3 : Int), 1]
  | _ :: rest =>
      rest.reverse.foldl
        (fun (acc : List Int) (dim : Nat) => (acc.headD 1 * (dim : Int)) :: acc) [1]

/-- All multi-indices of a shape, in row-major order (first axis slowest),
as produced by `ndarray::indices_of` and by the logical iteration order of
`into_raw_vec`/`from_copy_datum`. -/
def indicesOf : List Nat → List (List Nat)
  | [] => [[]]
  | d :: rest => (List.range d).flatMap fun i => (indicesOf rest).map (i :: ·)

/-- Row-major linear offset of a multi-index in a buffer of the given
shape (the offset computed by ndarray views, which `to_array_view*` builds
from the shape alone, i.e. with natural strides). -/
def ravel : List Nat → List Nat → Nat
  | _, [] => 0
  | [], _ => 0
  | _ :: s, i :: is => i * s.prod + ravel s is

/-- Element lookup at a multi-index (out-of-range reads return the default
value; all theorems below use it within bounds). -/
def tensorGet (t : Tensor) (idx : List Nat) : Val :=
  t.data.getD (ravel t.shape idx) default

/-- Model of `List` insertion at an index (as `Vec::insert`). -/
def listInsertAt {α : Type} (l : List α) (n : Nat) (a : α) : List α :=
  l.take n ++ a :: l.drop n

/-- Overwrite a contiguous segment of a flat buffer starting at `off`
(the effect of `ptr::copy`/`ptr::copy_nonoverlapping` into `dst + off`,
with the segment already snapshot — which is exactly the semantics of the
overlap-safe `ptr::copy`). -/
def overwriteAt (l : List Val) (off : Nat) (seg : List Val) : List Val :=
  l.take off ++ seg ++ l.drop (off + seg.length)

namespace Tensor

/-- Model of `Tensor::update_strides`. -/
def update_strides (t : Tensor) : Tensor :=
  { t with strides := compute_natural_stride_to t.shape }

/-- Model of `Tensor::set_shape_unchecked`: skips all work (including the stride
recomputation) when the new shape equals the current one. -/
def set_shape_unchecked (t : Tensor) (shape : List Nat) : Tensor :=
  if shape = t.shape then t
  else update_strides { t with shape := shape }

/-- Model of `Tensor::set_shape`: checked reshape. -/
def set_shape (t : Tensor) (shape : List Nat) : Except TErr Tensor :=
  if t.len ≠ shape.prod then .error .shapeMismatch
  else .ok (t.set_shape_unchecked shape)

/-- Model of `Tensor::into_shape`. -/
def into_shape (t : Tensor) (shape : List Nat) : Except TErr Tensor :=
  t.set_shape shape

/-- Model of `Tensor::insert_axis`: inserts a length-1 axis at `axis`; the inserted
stride is `strides[axis]` before insertion, or 1 past the end. -/
def insert_axis (t : Tensor) (axis : Nat) : Tensor :=
  { t with
    shape := listInsertAt t.shape axis 1
    strides := listInsertAt t.strides axis ((t.strides.get? axis).getD 1) }

/-- Model of `Tensor::remove_axis`. -/
def remove_axis (t : Tensor) (axis : Nat) : Tensor :=
  { t with shape := t.shape.eraseIdx axis, strides := t.strides.eraseIdx axis }

/-- Model of `Tensor::assign_slice_from_resolved`.  Ranges are the already-resolved
half-open `(start, end)` pairs.  When `axis == 0` and the kind is
trivially copyable this is the raw-pointer path: `stride` is
`strides[0]` (the source works in bytes, `strides[0] * size_of`; the
model works in elements), the segment of `src` is read as a snapshot and
written at the destination offset — the snapshot read is exactly the
semantics of the overlap-safe `ptr::copy` chosen when `self.data ==
src.data` (and of `ptr::copy_nonoverlapping` in the disjoint case).
Otherwise the element-wise ndarray `assign` through typed views (the
views are built from the shape alone, hence natural row-major order). -/
def assign_slice_from_resolved (t : Tensor) (range : Nat × Nat) (src : Tensor)
    (src_range : Nat × Nat) (axis : Nat) : Tensor :=
  if axis = 0 ∧ t.dt.is_copy then
    let stride := (t.strides.headD 0).toNat
    let dst_start := stride * range.1
    let src_start := stride * src_range.1
    let seg := (src.data.drop src_start).take (stride * (range.2 - range.1))
    { t with data := overwriteAt t.data dst_start seg }
  else
    { t with data := (indicesOf t.shape).map fun idx =>
        let c := idx.getD axis 0
        if range.1 ≤ c ∧ c < range.2 then
          tensorGet src (idx.set axis (c - range.1 + src_range.1))
        else tensorGet t idx }

/-- Do two shapes agree on every axis except `axis` (the `izip!` check of
`assign_slice`)? -/
def shapesAgreeExcept (axis : Nat) (s1 s2 : List Nat) : Bool :=
  s1.length == s2.length &&
    (List.range s1.length).all fun ix => ix == axis || s1.getD ix 0 == s2.getD ix 0

/-- Model of `Tensor::assign_slice` with the range bounds already resolved (the
claims below pass explicit bounded ranges, on which `clip_range_bounds`
is the identity).  The four `ensure!` checks, in source order. -/
def assign_slice (t : Tensor) (range : Nat × Nat) (src : Tensor)
    (src_range : Nat × Nat) (axis : Nat) : Except TErr Tensor :=
  if src.dt ≠ t.dt then .error .dtMismatch
  else if src_range.2 - src_range.1 ≠ range.2 - range.1 then .error .rangeLenMismatch
  else if ¬ shapesAgreeExcept axis t.shape src.shape then .error .shapeMismatch
  else if src_range.2 > src.shape.getD axis 0 then .error .indexOutOfRange
  else if range.2 > t.shape.getD axis 0 then .error .indexOutOfRange
  else .ok (assign_slice_from_resolved t range src src_range axis)

/-- Model of `Tensor::slice`.  The axis check is the source's explicit `bail!`;
the start/end bounds are delegated to `ndarray::slice_axis`, whose
`to_abs_slice` first clamps `end` up to `start` and then *panics* (modelled
by `Outcome.crash`) when either bound exceeds the axis length.  On success
the sub-range is copied into a fresh, independently-owned tensor
(`into_owned().into_tensor()`, natural strides). -/
def slice (t : Tensor) (axis : Nat) (start stop : Nat) : Outcome Tensor :=
  if axis ≥ t.rank then .err .axisOutOfRange
  else
    let axisLen := t.shape.getD axis 0
    let stop' := max start stop
    if start > axisLen then .crash "Slice begin is past end of axis"
    else if stop' > axisLen then .crash "Slice end is past end of axis"
    else
      let newShape := t.shape.set axis (stop' - start)
      .ok { dt := t.dt, shape := newShape,
            strides := compute_natural_stride_to newShape,
            data := (indicesOf newShape).map fun idx =>
              tensorGet t (idx.set axis (idx.getD axis 0 + start)) }

/-- Model of `Tensor::permute_axes`.  `ndarray::permuted_axes` panics when `axes`
is not a permutation of `0..rank`; otherwise new axis `i` is old axis
`axes[i]`, and `into_tensor` copies the permuted view into natural
row-major order.  The `dispatch_datum_by_size!` detour through a
same-width integer type is value-preserving and the original datum type
is restored by `set_datum_type`. -/
def permute_axes (t : Tensor) (axes : List Nat) : Outcome Tensor :=
  if ¬ (axes.length == t.rank && (List.range t.rank).all fun j => axes.contains j) then
    .crash "permuted axes: not a permutation"
  else
    let newShape := axes.map fun a => t.shape.getD a 0
    .ok { dt := t.dt, shape := newShape,
          strides := compute_natural_stride_to newShape,
          data := (indicesOf newShape).map fun v =>
            tensorGet t ((List.range t.rank).map fun j =>
              v.getD (axes.findIdx (· = j)) 0) }

/-- Model of `deep_clone`: value-level effect on the model.  The `String` and
`TDim` arms clone per element and keep the stored strides; every other
kind (including `Blob`) takes the raw-byte-copy arm, which allocates via
`uninitialized_dt` (natural strides) and copies `len * size_of` bytes. -/
def deep_clone (t : Tensor) : Tensor :=
  if t.dt = .string then t
  else if t.dt = .tdim then t
  else { t with strides := compute_natural_stride_to t.shape, data := t.data.take t.len }

end Tensor

/-- How `deep_clone` duplicates the buffer contents, per kind: the
`if`-chain of the source tests only `String` and `TDim`; everything else
— including `Blob` — falls into the raw-byte-copy branch. -/
inductive CloneMode where
  | perElementClone
  | rawByteCopy
deriving DecidableEq, Repr

/-- The branch of `deep_clone` taken for each kind. -/
def deep_clone_mode (dt : DatumType) : CloneMode :=
  if dt = .string then .perElementClone
  else if dt = .tdim then .perElementClone
  else .rawByteCopy

/-- The `match` at the head of `stack_tensors` that maps every trivially
copyable kind to the signed integer type of the same width before
dispatching the copy. -/
def repKind : DatumType → DatumType
  | .f16 => .i16
  | .f32 => .i32
  | .f64 => .i64
  | .bool => .i8
  | .u8 => .i8
  | .u16 => .i16
  | .u32 => .i32
  | .u64 => .i64
  | .i8 => .i8
  | .i16 => .i16
  | .i32 => .i32
  | .i64 => .i64
  | .tdim => .tdim
  | .blob => .blob
  | .string => .string

/-- Value picked from the concatenation of `tensors` along `axis` at
coordinate `c` of the stacked axis. -/
def pickStack : List Tensor → Nat → List Nat → Nat → Val
  | [], _, _, _ => default
  | t :: ts, c, idx, axis =>
      if c < t.shape.getD axis 0 then tensorGet t (idx.set axis c)
      else pickStack ts (c - t.shape.getD axis 0) idx axis

/-- Modelled from the spec: `ArrayDatum::stack_tensors` (in `datum.rs`,
outside `src/`) "concatenates a non-empty ordered sequence of same-kind
tensors along `axis`, producing one new tensor whose shape matches the
inputs except the stacked axis, which sums the inputs' sizes along that
axis".  The result carries the datum type it was dispatched at. -/
def inner_stack_tensors (dtRep : DatumType) (axis : Nat) (tensors : List Tensor) : Tensor :=
  let headShape := (tensors.headD { dt := dtRep, shape := [], strides := [], data := [] }).shape
  let outShape := headShape.set axis ((tensors.map fun t => t.shape.getD axis 0).sum)
  { dt := dtRep, shape := outShape,
    strides := compute_natural_stride_to outShape,
    data := (indicesOf outShape).map fun idx => pickStack tensors (idx.getD axis 0) idx axis }

/-- Model of `Tensor::stack_tensors`: `tensors[0]` panics on an empty slice; a
datum-type mismatch with the first tensor fails ("Inconsistent datum type
in stack."); otherwise the copy is dispatched at the same-width integer
kind and the result's datum type is relabelled to the inputs' kind
(`tensor.dt = dt`). -/
def stack_tensors (axis : Nat) (tensors : List Tensor) : Outcome Tensor :=
  match tensors with
  | [] => .crash "index out of bounds"
  | t0 :: rest =>
      let dt := t0.dt
      if (t0 :: rest).any fun t => t.dt ≠ dt then .err .kindMismatch
      else
        let inner := inner_stack_tensors (repKind dt) axis (t0 :: rest)
        .ok { inner with dt := dt }

/-- Signedness and bit width of each machine-integer kind. -/
def DatumType.intBits : DatumType → Option (Bool × Nat)
  | .i8 => some (true, 8)
  | .i16 => some (true, 16)
  | .i32 => some (true, 32)
  | .i64 => some (true, 64)
  | .u8 => some (false, 8)
  | .u16 => some (false, 16)
  | .u32 => some (false, 32)
  | .u64 => some (false, 64)
  | _ => none

/-- Two's-complement truncation of Rust's `as` conversion between integer
types. -/
def wrapInt (signed : Bool) (bits : Nat) (z : Int) : Int :=
  let m := z % (2 ^ bits : Int)
  if signed ∧ 2 ^ (bits - 1) ≤ m then m - 2 ^ bits else m

/-- Rust's float-to-integer `as` conversion: truncate toward zero and
saturate; NaN converts to 0. -/
def floatToInt (signed : Bool) (bits : Nat) (f : FVal) : Int :=
  let lo : Int := if signed then -(2 ^ (bits - 1)) else 0
  let hi : Int := if signed then 2 ^ (bits - 1) - 1 else 2 ^ bits - 1
  match f with
  | .nan => 0
  | .inf b => if b then lo else hi
  | .fin q => max lo (min hi (if 0 ≤ q then q.floor else q.ceil))

/-- One element of `natural_cast` (the `n!` macro arm for target `dst`):
`s.as_()` on a numeric source value.  Integer-to-float conversions are
exact in the symbolic float model (rounding of very large integers is not
modelled); float-to-float conversions are the identity (width rounding is
not modelled); the `TDim` target goes through a 32-bit integer
intermediate and the `Bool` target through `!is_zero`, as in the source. -/
def natural_cast_val (dst : DatumType) (v : Val) : Val :=
  match dst.intBits with
  | some (signed, bits) =>
      match v with
      | .vi z => .vi (wrapInt signed bits z)
      | .vf f => .vi (floatToInt signed bits f)
      | _ => default
  | none =>
      if dst.is_float then
        match v with
        | .vi z => .vf (.fin (z : ℚ))
        | .vf f => .vf f
        | _ => default
      else if dst = .tdim then
        match v with
        | .vi z => .vdim (.lit (wrapInt true 32 z))
        | .vf f => .vdim (.lit (floatToInt true 32 f))
        | _ => default
      else if dst = .bool then
        match v with
        | .vi z => .vb (z ≠ 0)
        | .vf f => .vb (f ≠ .fin 0)
        | _ => default
      else default

/-- Decimal value of a digit string. -/
def digitsVal (cs : List Char) : Nat :=
  cs.foldl (fun n c => n * 10 + (c.toNat - 48)) 0

/-- Are all characters ASCII digits (and at least one present)? -/
def allDigits (cs : List Char) : Bool :=
  !cs.isEmpty && cs.all Char.isDigit

/-- Rust's `FromStr` for machine integers: optional sign (`-` only for
signed types), one or more ASCII digits, nothing else; out-of-range
values fail. -/
def parseIntRust (signed : Bool) (bits : Nat) (s : String) : Option Int :=
  let cs := s.toList
  let signBody : Option (Bool × List Char) :=
    match cs with
    | '+' :: rest => some (false, rest)
    | '-' :: rest => if signed then some (true, rest) else none
    | _ => some (false, cs)
  match signBody with
  | none => none
  | some (neg, body) =>
      if allDigits body then
        let v : Int := if neg then -(digitsVal body : Int) else (digitsVal body : Int)
        let lo : Int := if signed then -(2 ^ (bits - 1)) else 0
        let hi : Int := if signed then 2 ^ (bits - 1) - 1 else 2 ^ bits - 1
        if lo ≤ v ∧ v ≤ hi then some v else none
      else none

/-- Rust's `FromStr` for `bool`. -/
def parseBoolRust (s : String) : Option Bool :=
  if s = "true" then some true else if s = "false" then some false else none

/-- Rust's `FromStr` for floats, on the symbolic float model: optional
sign; `inf`/`infinity`/`nan` (case-insensitive); or a decimal mantissa
with at least one digit, an optional fraction and an optional exponent.
The value is kept as an exact rational (overflow to infinity and
round-to-nearest are not modelled; no claim depends on them). -/
def parseFloatRust (s : String) : Option FVal :=
  let cs := s.toList
  let (neg, body) :=
    match cs with
    | '+' :: rest => (false, rest)
    | '-' :: rest => (true, rest)
    | _ => (false, cs)
  let lower := body.map Char.toLower
  if lower = ['i', 'n', 'f'] ∨ lower = ['i', 'n', 'f', 'i', 'n', 'i', 't', 'y'] then
    some (.inf neg)
  else if lower = ['n', 'a', 'n'] then some .nan
  else
    let ip := body.takeWhile Char.isDigit
    let rest1 := body.dropWhile Char.isDigit
    let (fp, rest2) :=
      match rest1 with
      | '.' :: r => (r.takeWhile Char.isDigit, r.dropWhile Char.isDigit)
      | _ => ([], rest1)
    if ip.length + fp.length = 0 then none
    else
      let mant : ℚ := (digitsVal ip : ℚ) + (digitsVal fp : ℚ) / ((10 : ℚ) ^ fp.length)
      let expVal : Option Int :=
        match rest2 with
        | [] => some 0
        | e :: r =>
            if e = 'e' ∨ e = 'E' then
              match r with
              | '+' :: d => if allDigits d then some (digitsVal d : Int) else none
              | '-' :: d => if allDigits d then some (-(digitsVal d : Int)) else none
              | d => if allDigits d then some (digitsVal d : Int) else none
            else none
      match expVal with
      | none => none
      | some ex => some (.fin ((if neg then -1 else 1) * mant * (10 : ℚ) ^ ex))

/-- The per-target-kind parser used by `cast_from_string`'s
`dispatch_datum!` (each arm is `<Target as FromStr>::from_str`).
Modelled from the spec for the non-numeric targets: the spec tabulates
String → numeric only, and "any untabulated kind pair fails with an
UnsupportedCast error", so those yield no parser here. -/
def parserFor : DatumType → Option (String → Option Val)
  | .bool => some fun s => (parseBoolRust s).map .vb
  | .i8 => some fun s => (parseIntRust true 8 s).map .vi
  | .i16 => some fun s => (parseIntRust true 16 s).map .vi
  | .i32 => some fun s => (parseIntRust true 32 s).map .vi
  | .i64 => some fun s => (parseIntRust true 64 s).map .vi
  | .u8 => some fun s => (parseIntRust false 8 s).map .vi
  | .u16 => some fun s => (parseIntRust false 16 s).map .vi
  | .u32 => some fun s => (parseIntRust false 32 s).map .vi
  | .u64 => some fun s => (parseIntRust false 64 s).map .vi
  | .f16 => some fun s => (parseFloatRust s).map .vf
  | .f32 => some fun s => (parseFloatRust s).map .vf
  | .f64 => some fun s => (parseFloatRust s).map .vf
  | _ => none

/-- Model of `Tensor::cast_from_string`: the source's `for` loop parses each
element in order and the first parse failure aborts the whole cast (`?`)
with an error naming the offending text and the target kind ("Could not
parse {} as {:?}").  A non-string buffer value under a String-kind tensor
would be an ill-formed buffer; it maps to the default value here. -/
def cast_from_string (data : List Val) (dt : DatumType) (p : String → Option Val) :
    Except TErr (List Val) :=
  match data with
  | [] => .ok []
  | v :: rest =>
      let head : Except TErr Val :=
        match v with
        | .vs s =>
            match p s with
            | some w => .ok w
            | none => .error (.parseError s dt)
        | _ => .ok default
      match head with
      | .error e => .error e
      | .ok w =>
          match cast_from_string rest dt p with
          | .error e => .error e
          | .ok ws => .ok (w :: ws)

/-- Model of `Tensor::cast_to_string`'s per-element `to_string`.  Integer, bool and
`TDim` display match Rust's; the finite-float rendering is abstracted (no
claim exercises float formatting). -/
def displayVal : Val → String
  | .vi z => toString z
  | .vb b => if b then "true" else "false"
  | .vf .nan => "NaN"
  | .vf (.inf b) => if b then "-inf" else "inf"
  | .vf (.fin q) => toString q
  | .vs s => s
  | .vdim (.lit z) => toString z
  | .vdim (.sym n) => n
  | .vblob _ => ""

/-- The `n!` macro chain of `cast_to_dt`: element-wise `natural_cast` from
a numeric source kind (`u8..f64`; any other source falls through to the
"Unsupported cast" `bail!`).  The `DatumType::Blob` target hits the
source's `todo!()` panic; it is modelled as an error here (no claim
depends on that distinction), and the `String` target is unreachable
(handled before this chain). -/
def castNumeric (t : Tensor) (dt : DatumType) : Except TErr Tensor :=
  if ¬(t.dt.is_integer || t.dt.is_float) then .error .unsupportedCast
  else
    match dt with
    | .string => .error .unsupportedCast
    | .blob => .error .unsupportedCast
    | _ => .ok { dt := dt, shape := t.shape,
                 strides := compute_natural_stride_to t.shape,
                 data := t.data.map (natural_cast_val dt) }

/-- Model of `TDim::to_i64` on the model: a concrete literal converts, an
unresolved symbol fails. -/
def tdimToI64 : Val → Except TErr Val
  | .vdim (.lit z) => .ok (.vi z)
  | .vdim (.sym _) => .error .unresolvedDim
  | _ => .ok default

/-- Model of `Tensor::cast_to_dt`, with the source's branch order: identity first;
then `TDim` source through an `i64` intermediate (the recursive
`cast_to_dt` call is unfolded: its target is integer/float, so it is the
identity for `i64` and the `n!` chain otherwise); then `Bool` source
through an `i8` intermediate likewise; then `String` source (per-target
parse), `String` target (per-element `to_string`), and the numeric `n!`
chain. -/
def cast_to_dt (t : Tensor) (dt : DatumType) : Except TErr Tensor :=
  if t.dt = dt then .ok t
  else if t.dt = .tdim ∧ (dt.is_integer || dt.is_float) then
    match t.data.mapM tdimToI64 with
    | .error e => .error e
    | .ok ints =>
        let intsT : Tensor := { dt := .i64, shape := t.shape,
                                strides := compute_natural_stride_to t.shape, data := ints }
        if dt = .i64 then .ok intsT else castNumeric intsT dt
  else if t.dt = .bool ∧ (dt.is_integer || dt.is_float) then
    let ints := t.data.map fun v =>
      match v with
      | .vb b => Val.vi (if b then 1 else 0)
      | _ => default
    let intsT : Tensor := { dt := .i8, shape := t.shape,
                            strides := compute_natural_stride_to t.shape, data := ints }
    if dt = .i8 then .ok intsT else castNumeric intsT dt
  else if t.dt = .string then
    match parserFor dt with
    | some p =>
        match cast_from_string t.data dt p with
        | .error e => .error e
        | .ok vals => .ok { dt := dt, shape := t.shape,
                            strides := compute_natural_stride_to t.shape, data := vals }
    | none => .error .unsupportedCast
  else if dt = .string then
    .ok { dt := .string, shape := t.shape,
          strides := compute_natural_stride_to t.shape, data := t.data.map (.vs ∘ displayVal) }
  else castNumeric t dt

/-- Model of `Tensor::to_scalar`: only `check_for_access` (a datum-type check) and
a dereference of the buffer's base pointer — there is no rank check, so
for a non-empty buffer this is the first element in row-major order. -/
def to_scalar (t : Tensor) (dt : DatumType) : Except TErr Val :=
  if t.dt ≠ dt then .error .dtMismatch
  else .ok (t.data.getD 0 default)

/-- Model of `Tensor::cast_to_scalar`: cast, then `to_scalar`. -/
def cast_to_scalar (t : Tensor) (dt : DatumType) : Except TErr Val :=
  match cast_to_dt t dt with
  | .error e => .error e
  | .ok c => to_scalar c dt

/-- Per-kind element equality used by `eq_dt`'s `dispatch_datum!`: floats
compare with IEEE equality (NaN is unequal to itself), every other kind
with structural equality. -/
def valEqAt (dt : DatumType) (a b : Val) : Bool :=
  if dt.is_float then
    match a, b with
    | .vf x, .vf y => FVal.ieeeEq x y
    | _, _ => a = b
  else a = b

/-- Model of `Tensor::eq_dt`'s slice comparison: `as_slice_unchecked` exposes the
first `len()` elements; slice equality is length plus element-wise
equality. -/
def eq_dt (a b : Tensor) : Bool :=
  let x := a.data.take a.len
  let y := b.data.take b.len
  x.length == y.length && (x.zip y).all fun p => valEqAt a.dt p.1 p.2

/-- Model of `PartialEq for Tensor`: same kind, same shape, equal contents. -/
def tensorEq (a b : Tensor) : Bool :=
  if a.dt ≠ b.dt ∨ a.shape ≠ b.shape then false else eq_dt a b

/-- The per-position predicate of `close_enough` in approximate mode:
both NaN, or both infinite with equal `signum`, or
`|a - b| <= atol + rtol * |b|` with `atol = 5e-4`, `rtol = 1e-4` (all in
IEEE float arithmetic). -/
def closeCond (a b : FVal) : Bool :=
  (a.isNan && b.isNan)
    || (a.isInf && b.isInf && FVal.ieeeEq a.signum b.signum)
    || FVal.fle (a.sub b).abs
        (FVal.add (.fin (5 / 10000)) (FVal.mul (.fin (1 / 10000)) b.abs))

/-- View a buffer value as the float it stores (buffers of float kind
hold `.vf` values; anything else is an ill-formed buffer). -/
def asF : Val → FVal
  | .vf f => f
  | _ => .nan

/-- Model of `Tensor::close_enough`: shape check; in approximate mode both sides
are cast to 32-bit float and every position must satisfy `closeCond`,
the first failing position being reported with its multi-index
(`try_for_each` visits `indices_of` in row-major order); in exact mode
it is `PartialEq`. -/
def close_enough (a b : Tensor) (approx : Bool) : Except TErr Unit :=
  if a.shape ≠ b.shape then .error .shapeMismatch
  else if approx then
    match cast_to_dt a .f32 with
    | .error e => .error e
    | .ok ma =>
        match cast_to_dt b .f32 with
        | .error e => .error e
        | .ok mb =>
            match (indicesOf ma.shape).find? fun idx =>
                !closeCond (asF (tensorGet ma idx)) (asF (tensorGet mb idx)) with
            | some idx => .error (.mismatchAt idx)
            | none => .ok ()
  else if tensorEq a b then .ok () else .error .mismatch

/-- Is the outcome a panic? -/
def Outcome.isCrash {α : Type} : Outcome α → Bool
  | .crash _ => true
  | _ => false

/-- The spec's reference procedure for overlapping `assign_slice`: "first
copying the source range to a temporary buffer and then assigning from
the temporary".  The temporary is an independently-owned tensor holding
the half-open `src_range` of `src` along `axis` (what `slice` extracts),
and the assignment then reads from it. -/
def assign_slice_via_temp (t : Tensor) (range : Nat × Nat) (src : Tensor)
    (src_range : Nat × Nat) (axis : Nat) : Except TErr Tensor :=
  let len := src_range.2 - src_range.1
  let tmpShape := src.shape.set axis len
  let tmp : Tensor :=
    { dt := src.dt, shape := tmpShape,
      strides := compute_natural_stride_to tmpShape,
      data := (indicesOf tmpShape).map fun idx =>
        tensorGet src (idx.set axis (idx.getD axis 0 + src_range.1)) }
  Tensor.assign_slice t range tmp (0, len) axis

/-! Concrete instances used by the scenario claims. -/

/-- A `[2,3]` float32 tensor filled with `1..=6` in row-major order. -/
def exPermInput : Tensor :=
  { dt := .f32, shape := [2, 3], strides := [3, 1],
    data := [.vf (.fin 1), .vf (.fin 2), .vf (.fin 3),
             .vf (.fin 4), .vf (.fin 5), .vf (.fin 6)] }

/-- A `[5]` int8 tensor holding `[10, 20, 30, 40, 50]`. -/
def exI8Five : Tensor :=
  { dt := .i8, shape := [5], strides := [1],
    data := [.vi 10, .vi 20, .vi 30, .vi 40, .vi 50] }

/-- A `[2]` int32 tensor holding `[7, 8]` (rank 1, not a scalar). -/
def exI32Pair : Tensor :=
  { dt := .i32, shape := [2], strides := [1], data := [.vi 7, .vi 8] }

/-- A `[2,3]` int32 tensor with natural strides. -/
def exI32TwoThree : Tensor :=
  { dt := .i32, shape := [2, 3], strides := [3, 1],
    data := [.vi 1, .vi 2, .vi 3, .vi 4, .vi 5, .vi 6] }

/-- A string tensor `["3", "4"]`. -/
def exStrPair : Tensor :=
  { dt := .string, shape := [2], strides := [1], data := [.vs "3", .vs "4"] }

/-- A string tensor `["x"]`. -/
def exStrBad : Tensor :=
  { dt := .string, shape := [1], strides := [1], data := [.vs "x"] }

/-- A `[4]` float32 tensor containing NaN, `+inf`, `-inf` and a finite
value. -/
def exFloatSpecials : Tensor :=
  { dt := .f32, shape := [4], strides := [1],
    data := [.vf .nan, .vf (.inf false), .vf (.inf true), .vf (.fin 2)] }

/-- A `[1]` float32 tensor containing a NaN element. -/
def exNanTensor : Tensor :=
  { dt := .f32, shape := [1], strides := [1], data := [.vf .nan] }

/-- The transpose of `exPermInput` produced by `permute_axes [1,0]`. -/
def exPermResult : Tensor :=
  { dt := .f32, shape := [3, 2], strides := [2, 1],
    data := [.vf (.fin 1), .vf (.fin 4), .vf (.fin 2),
             .vf (.fin 5), .vf (.fin 3), .vf (.fin 6)] }

/-! Supporting lemmas. -/

lemma closeCond_self (f : FVal) : closeCond f f = true := by
  cases f with
  | nan => rfl
  | inf b => simp [closeCond, FVal.isInf, FVal.signum, FVal.ieeeEq]
  | fin q =>
      unfold closeCond
      simp [FVal.sub, FVal.abs, FVal.add, FVal.mul, FVal.fle, FVal.isNan, FVal.isInf]
      positivity

lemma valEqAt_self (dt : DatumType) (v : Val) (h : v ≠ .vf .nan) :
    valEqAt dt v v = true := by
  unfold valEqAt
  split
  · cases v with
    | vf f =>
        cases f with
        | nan => exact absurd rfl h
        | inf b => simp [FVal.ieeeEq]
        | fin q => simp [FVal.ieeeEq]
    | vb b => simp
    | vi z => simp
    | vs s => simp
    | vdim d => simp
    | vblob bs => simp
  · simp

lemma zip_self_all (l : List Val) (f : Val → Val → Bool) :
    ((l.zip l).all fun p => f p.1 p.2) = l.all fun v => f v v := by
  induction l with
  | nil => rfl
  | cons v vs ih => simp [List.zip_cons_cons, ih]

lemma shapesAgreeExcept_refl (axis : Nat) (s : List Nat) :
    Tensor.shapesAgreeExcept axis s s = true := by
  simp [Tensor.shapesAgreeExcept]

lemma castNumeric_dt (t : Tensor) (dt : DatumType) (c : Tensor)
    (h : castNumeric t dt = .ok c) : c.dt = dt := by
  unfold castNumeric at h
  split at h
  · exact absurd h (by simp)
  · cases dt <;> cases h <;> rfl

lemma cast_to_dt_dt (t : Tensor) (dt : DatumType) (c : Tensor)
    (h : cast_to_dt t dt = .ok c) : c.dt = dt := by
  unfold cast_to_dt at h
  split at h
  · rename_i heq
    cases h
    exact heq
  · split at h
    · split at h
      · exact absurd h (by simp)
      · split at h
        · rename_i hdt
          cases h
          exact hdt.symm
        · exact castNumeric_dt _ _ _ h
    · split at h
      · split at h
        · rename_i hdt
          cases h
          exact hdt.symm
        · exact castNumeric_dt _ _ _ h
      · split at h
        · split at h
          · split at h
            · exact absurd h (by simp)
            · cases h
              rfl
          · exact absurd h (by simp)
        · split at h
          · rename_i hdt
            cases h
            exact hdt.symm
          · exact castNumeric_dt _ _ _ h

/-! Claim theorems. -/

/-- C2 (code_bug evidence): `deep_clone` takes the raw-byte-copy branch
for `Blob` even though `Blob` is not trivially copyable (it owns heap
data, as witnessed by the `Drop` glue), while `String` and `TDim` get the
per-element clone branch the claim describes for all three non-trivial
kinds. -/
theorem deep_clone_blob_raw_copied :
    deep_clone_mode .blob = .rawByteCopy ∧ DatumType.is_copy .blob = false ∧
    deep_clone_mode .string = .perElementClone ∧
    deep_clone_mode .tdim = .perElementClone := by
  decide

/-- C9: permuting the `[2,3]` float32 tensor filled with `1..=6` by
`[1,0]` yields the `[3,2]` tensor whose element at `(i,j)` is the
original's element at `(j,i)`, with kind still float32. -/
theorem permute_axes_scenario :
    Tensor.permute_axes exPermInput [1, 0] = .ok exPermResult ∧
    exPermResult.dt = .f32 ∧ exPermResult.shape = [3, 2] ∧
    ((List.range 3).all fun i => (List.range 2).all fun j =>
      tensorGet exPermResult [i, j] == tensorGet exPermInput [j, i]) = true := by
  refine ⟨by decide, rfl, rfl, by decide⟩

/-- C3 (counterexample): slicing the `[5]` int8 tensor with
`start=2, end=6` does not return an IndexOutOfRange error — it panics in
ndarray's bounds assertion — while the in-bounds `start=2, end=5` slice
does return the last three elements. -/
theorem slice_end_oob_panics :
    Tensor.slice exI8Five 0 2 6 = .crash "Slice end is past end of axis" ∧
    (Tensor.slice exI8Five 0 2 6).isCrash = true ∧
    Tensor.slice exI8Five 0 2 5 =
      .ok { dt := .i8, shape := [3], strides := [1],
            data := [.vi 30, .vi 40, .vi 50] } := by
  refine ⟨rfl, rfl, by decide⟩

/-- C3 (amended): `slice(axis, start, end)` returns an error only for an
out-of-range `axis`; for a valid axis and in-bounds `start <= end <=
shape[axis]` it returns a new independently-owned tensor holding the
half-open sub-range along the axis; and when the bounds exceed the axis
length it panics (in ndarray's slicing assertion) rather than returning
an IndexOutOfRange error. -/
theorem slice_spec (t : Tensor) (axis start stop : Nat) :
    (t.rank ≤ axis → Tensor.slice t axis start stop = .err .axisOutOfRange) ∧
    (axis < t.rank → start ≤ stop → stop ≤ t.shape.getD axis 0 →
      Tensor.slice t axis start stop =
        .ok { dt := t.dt, shape := t.shape.set axis (stop - start),
              strides := compute_natural_stride_to (t.shape.set axis (stop - start)),
              data := (indicesOf (t.shape.set axis (stop - start))).map fun idx =>
                tensorGet t (idx.set axis (idx.getD axis 0 + start)) }) ∧
    (axis < t.rank → t.shape.getD axis 0 < max start stop →
      (Tensor.slice t axis start stop).isCrash = true) := by
  refine ⟨fun h => ?_, fun h hse hb => ?_, fun h hb => ?_⟩
  · unfold Tensor.slice
    rw [if_pos (by omega)]
  · unfold Tensor.slice
    rw [if_neg (by omega)]
    have hmax : max start stop = stop := by omega
    rw [hmax]
    rw [if_neg (by omega), if_neg (by omega)]
  · unfold Tensor.slice
    rw [if_neg (by omega)]
    by_cases hs : start > t.shape.getD axis 0
    · rw [if_pos hs]
      rfl
    · rw [if_neg hs, if_pos (by omega)]
      rfl

/-- C4 (counterexample): `cast_to_scalar` on a rank-1 int32 tensor does
not return a RankMismatch error; it succeeds with the first element. -/
theorem cast_to_scalar_rank1_ok :
    cast_to_scalar exI32Pair .i32 = .ok (.vi 7) ∧ exI32Pair.rank = 1 :=
  ⟨rfl, rfl⟩

/-- C4 (amended): `cast_to_scalar` performs no rank check: whenever the
underlying cast succeeds, it succeeds on a tensor of any rank, returning
the casted buffer's first element in row-major order (`to_scalar` only
checks the datum type and dereferences the base pointer). -/
theorem cast_to_scalar_no_rank_check (t : Tensor) (dt : DatumType) (c : Tensor)
    (h : cast_to_dt t dt = .ok c) :
    cast_to_scalar t dt = .ok (c.data.getD 0 default) := by
  have hdt := cast_to_dt_dt t dt c h
  unfold cast_to_scalar
  rw [h]
  simp [to_scalar, hdt]

/-- C4 (amended) witness: the rank-1 tensor `[7, 8]` casts to scalar `7`. -/
theorem cast_to_scalar_no_rank_check_witness :
    cast_to_scalar exI32Pair .i32 = .ok ((exI32Pair.data.getD 0 default)) := by
  have := cast_to_scalar_no_rank_check exI32Pair .i32 exI32Pair (by rfl)
  simpa using this

/-- C6 (counterexample): after `insert_axis 0` on a natural `[2,3]`
tensor the strides are `[3,3,1]`; `set_shape` to the *same* shape
`[1,2,3]` succeeds but leaves those strides untouched, and they are not
the natural row-major strides `[6,3,1]` of the new shape. -/
theorem set_shape_keeps_stale_strides :
    Tensor.set_shape (exI32TwoThree.insert_axis 0) [1, 2, 3] =
      .ok (exI32TwoThree.insert_axis 0) ∧
    (exI32TwoThree.insert_axis 0).strides = [3, 3, 1] ∧
    compute_natural_stride_to [1, 2, 3] = [6, 3, 1] ∧
    (exI32TwoThree.insert_axis 0).strides ≠ compute_natural_stride_to [1, 2, 3] := by
  refine ⟨rfl, rfl, rfl, by decide⟩

/-- C6 (amended): `set_shape` succeeds exactly when the new shape's
product equals the element count (failing with a ShapeMismatch error
otherwise); on success the buffer contents and kind are untouched and the
strides are recomputed to the natural row-major strides of the new shape
*when the new shape differs from the current one* (when it is equal the
tensor, stale strides included, is returned unchanged); and reshaping
away and back is the identity for a tensor whose strides are natural. -/
theorem set_shape_spec (t : Tensor) (s : List Nat) :
    (t.len ≠ s.prod → Tensor.set_shape t s = .error .shapeMismatch) ∧
    (t.len = s.prod → s ≠ t.shape →
      Tensor.set_shape t s =
        .ok { dt := t.dt, shape := s, strides := compute_natural_stride_to s,
              data := t.data }) ∧
    (t.len = s.prod → s = t.shape → Tensor.set_shape t s = .ok t) ∧
    (t.strides = compute_natural_stride_to t.shape → t.len = s.prod →
      (Tensor.set_shape t s).bind (fun r => Tensor.set_shape r t.shape) = .ok t) := by
  obtain ⟨dt, shape, strides, data⟩ := t
  refine ⟨fun hne => ?_, fun h hs => ?_, fun h hs => ?_, fun hnat h => ?_⟩
  · simp [Tensor.set_shape, hne]
  · simp [Tensor.set_shape, h, Tensor.set_shape_unchecked, hs, Tensor.update_strides]
  · simp [Tensor.set_shape, h, Tensor.set_shape_unchecked, hs]
  · by_cases hs : s = shape
    · subst hs
      simp [Tensor.set_shape, h, Tensor.set_shape_unchecked, Except.bind]
    · have h2 : Tensor.set_shape ⟨dt, shape, strides, data⟩ s =
          .ok ⟨dt, s, compute_natural_stride_to s, data⟩ := by
        simp [Tensor.set_shape, h, Tensor.set_shape_unchecked, hs, Tensor.update_strides]
      rw [h2]
      show Tensor.set_shape ⟨dt, s, compute_natural_stride_to s, data⟩ shape = .ok _
      have hlen : (Tensor.mk dt s (compute_natural_stride_to s) data).len = shape.prod := by
        simp [Tensor.len] at h ⊢
        omega
      have hne2 : shape ≠ s := fun hc => hs hc.symm
      simp [Tensor.set_shape, hlen, Tensor.set_shape_unchecked, hne2,
        Tensor.update_strides]
      exact hnat.symm

/-- C6 (amended) witness: reshaping the natural `[2,3]` tensor to `[6]`
recomputes natural strides, and reshaping back restores the original
tensor exactly. -/
theorem set_shape_spec_witness :
    Tensor.set_shape exI32TwoThree [6] =
      .ok { dt := .i32, shape := [6], strides := compute_natural_stride_to [6],
            data := exI32TwoThree.data } ∧
    (Tensor.set_shape exI32TwoThree [6]).bind (fun r => Tensor.set_shape r [2, 3]) =
      .ok exI32TwoThree := by
  constructor
  · exact (set_shape_spec exI32TwoThree [6]).2.1 rfl (by decide)
  · exact (set_shape_spec exI32TwoThree [6]).2.2.2 rfl rfl

/-- C5: `stack_tensors` on a non-empty sequence fails with the
kind-mismatch error when any input's kind differs from the first one's;
otherwise it succeeds and the result's public kind is the inputs' kind —
the same-width integer kind used internally for the copy (`repKind`) is
relabelled away and never leaks. -/
theorem stack_tensors_kind_check (axis : Nat) (t0 : Tensor) (rest : List Tensor) :
    ((∃ t ∈ t0 :: rest, t.dt ≠ t0.dt) →
      stack_tensors axis (t0 :: rest) = .err .kindMismatch) ∧
    ((∀ t ∈ t0 :: rest, t.dt = t0.dt) →
      stack_tensors axis (t0 :: rest) =
        .ok { inner_stack_tensors (repKind t0.dt) axis (t0 :: rest) with dt := t0.dt }) := by
  constructor
  · rintro ⟨t, ht, hne⟩
    have hany : ((t0 :: rest).any fun t => t.dt ≠ t0.dt) = true :=
      List.any_eq_true.mpr ⟨t, ht, by simpa using hne⟩
    simp only [stack_tensors, hany]
    simp
  · intro hall
    have hany : ((t0 :: rest).any fun t => t.dt ≠ t0.dt) = false :=
      List.any_eq_false.mpr fun x hx => by simpa using hall x hx
    simp only [stack_tensors, hany]
    simp

/-- C5 witness: stacking an int32 tensor with a string tensor fails with
the kind mismatch; stacking two float32 tensors along axis 1 succeeds
with public kind float32 (although the copy is dispatched at `i32`). -/
theorem stack_tensors_kind_check_witness :
    stack_tensors 0 [exI32Pair, exStrPair] = .err .kindMismatch ∧
    stack_tensors 1 [exPermInput, exPermInput] =
      .ok { inner_stack_tensors (repKind exPermInput.dt) 1 [exPermInput, exPermInput] with
            dt := exPermInput.dt } ∧
    repKind exPermInput.dt = .i32 := by
  refine ⟨(stack_tensors_kind_check 0 exI32Pair [exStrPair]).1 ?_,
    (stack_tensors_kind_check 1 exPermInput [exPermInput]).2 ?_, rfl⟩
  · exact ⟨exStrPair, by simp, by decide⟩
  · intro t ht
    rcases List.mem_cons.mp ht with h | hmem
    · rw [h]
    · rw [List.mem_singleton.mp hmem]

/-- C10: exact tensor equality uses IEEE float equality, so it is not
reflexive on a float tensor containing NaN, while it is reflexive on any
tensor whose buffer contains no NaN element. -/
theorem tensor_eq_nan_irreflexive :
    tensorEq exNanTensor exNanTensor = false ∧
    ∀ t : Tensor, (∀ v ∈ t.data, v ≠ .vf .nan) → tensorEq t t = true := by
  constructor
  · rfl
  · intro t hnn
    unfold tensorEq
    rw [if_neg (by simp)]
    unfold eq_dt
    simp only [beq_self_eq_true, Bool.true_and]
    rw [zip_self_all]
    rw [List.all_eq_true]
    intro v hv
    exact valEqAt_self t.dt v (hnn v (List.take_subset _ _ hv))

/-- C10 witness: a NaN-free int32 tensor is equal to itself. -/
theorem tensor_eq_nan_irreflexive_witness : tensorEq exI32Pair exI32Pair = true :=
  tensor_eq_nan_irreflexive.2 exI32Pair (by decide)

lemma cast_to_dt_f32_of_float (t : Tensor) (h : t.dt.is_float = true)
    (h32 : t.dt ≠ .f32) :
    cast_to_dt t .f32 =
      .ok { dt := .f32, shape := t.shape,
            strides := compute_natural_stride_to t.shape,
            data := t.data.map (natural_cast_val .f32) } := by
  have h1664 : t.dt = .f16 ∨ t.dt = .f64 := by
    cases ht : t.dt <;> simp_all [DatumType.is_float]
  unfold cast_to_dt castNumeric
  rcases h1664 with h' | h' <;> rw [h'] <;>
    simp [DatumType.is_integer, DatumType.is_float]

/-- C8: for every float-kind tensor (which may contain NaN and ±infinity),
`close_enough(t, t, approx := true)` succeeds: after the cast to 32-bit
float, each position passes because both values are the same NaN, the same
signed infinity, or finite with `|a-a| = 0 <= 5e-4 + 1e-4*|a|`. -/
theorem close_enough_self_approx (t : Tensor) (h : t.dt.is_float = true) :
    close_enough t t true = .ok () := by
  have hcast : ∃ ma, cast_to_dt t .f32 = .ok ma := by
    by_cases h32 : t.dt = .f32
    · exact ⟨t, by simp [cast_to_dt, h32]⟩
    · exact ⟨_, cast_to_dt_f32_of_float t h h32⟩
  obtain ⟨ma, hma⟩ := hcast
  have hnone : ((indicesOf ma.shape).find? fun idx =>
      !closeCond (asF (tensorGet ma idx)) (asF (tensorGet ma idx))) = none := by
    refine List.find?_eq_none.mpr fun idx _ => ?_
    simp [closeCond_self]
  simp [close_enough, hma, hnone]

/-- C8 witness: the float32 tensor `[NaN, +inf, -inf, 2.0]` is
approximately equal to itself. -/
theorem close_enough_self_approx_witness :
    close_enough exFloatSpecials exFloatSpecials true = .ok () :=
  close_enough_self_approx exFloatSpecials rfl

/-- C3 (amended) witness: slicing `[10,20,30,40,50]` at `[2,5)` yields
`[30,40,50]`; axis 1 on a rank-1 tensor errors; `end = 6` panics. -/
theorem slice_spec_witness :
    Tensor.slice exI8Five 0 2 5 =
      .ok { dt := .i8, shape := [3], strides := [1],
            data := [.vi 30, .vi 40, .vi 50] } ∧
    Tensor.slice exI8Five 1 0 1 = .err .axisOutOfRange ∧
    (Tensor.slice exI8Five 0 2 6).isCrash = true := by
  refine ⟨?_, ?_, ?_⟩
  · have h := (slice_spec exI8Five 0 2 5).2.1 (by decide) (by decide) (by decide)
    exact h.trans (congrArg Outcome.ok (by decide))
  · exact (slice_spec exI8Five 1 0 1).1 (by decide)
  · exact (slice_spec exI8Five 0 2 6).2.2 (by decide) (by decide)

lemma cast_from_string_all_ok (dt : DatumType) (p : String → Option Val)
    (strs : List String) (hall : ∀ s ∈ strs, (p s).isSome) :
    cast_from_string (strs.map .vs) dt p =
      .ok (strs.map fun s => (p s).getD default) := by
  induction strs with
  | nil => rfl
  | cons s ss ih =>
      obtain ⟨v, hv⟩ := Option.isSome_iff_exists.mp (hall s (List.mem_cons_self s ss))
      have ih' := ih fun x hx => hall x (List.mem_cons_of_mem _ hx)
      simp [cast_from_string, hv, ih']

lemma cast_from_string_first_fail (dt : DatumType) (p : String → Option Val)
    (pre : List String) (s1 : String) (suf : List String)
    (hpre : ∀ s ∈ pre, (p s).isSome) (hfail : p s1 = none) :
    cast_from_string ((pre ++ s1 :: suf).map .vs) dt p =
      .error (.parseError s1 dt) := by
  induction pre with
  | nil => simp [cast_from_string, hfail]
  | cons s ss ih =>
      obtain ⟨v, hv⟩ := Option.isSome_iff_exists.mp (hpre s (List.mem_cons_self s ss))
      have ih' := ih fun x hx => hpre x (List.mem_cons_of_mem _ hx)
      simp only [List.map_append, List.map_cons] at ih'
      simp [cast_from_string, hv, ih']

/-- C7: casting a String tensor to a numeric kind parses every element
with the target kind's `FromStr`; if all elements parse the cast succeeds
with the parsed values, and the first element that fails to parse aborts
the whole cast with a ParseError naming the offending text. -/
theorem cast_string_tensor_parses (t : Tensor) (dt : DatumType)
    (p : String → Option Val) (strs : List String)
    (ht : t.dt = .string) (hp : parserFor dt = some p)
    (hdata : t.data = strs.map .vs) :
    ((∀ s ∈ strs, (p s).isSome) →
      cast_to_dt t dt =
        .ok { dt := dt, shape := t.shape,
              strides := compute_natural_stride_to t.shape,
              data := strs.map fun s => (p s).getD default }) ∧
    (∀ pre s1 suf, strs = pre ++ s1 :: suf → (∀ s ∈ pre, (p s).isSome) →
      p s1 = none → cast_to_dt t dt = .error (.parseError s1 dt)) := by
  have hne : dt ≠ .string := by
    intro hc
    rw [hc] at hp
    exact Option.noConfusion hp
  have hne' : ¬(DatumType.string = dt) := fun hc => hne hc.symm
  constructor
  · intro hall
    have hcfs := cast_from_string_all_ok dt p strs hall
    rw [← hdata] at hcfs
    simp [cast_to_dt, ht, hne', hp, hcfs]
  · intro pre s1 suf hsplit hpre hfail
    have hcfs := cast_from_string_first_fail dt p pre s1 suf hpre hfail
    rw [← hsplit, ← hdata] at hcfs
    simp [cast_to_dt, ht, hne', hp, hcfs]

/-- C7 witness: `["3","4"]` casts to int32 `[3,4]`; `["x"]` fails with a
ParseError naming `"x"`. -/
theorem cast_string_tensor_parses_witness :
    cast_to_dt exStrPair .i32 =
      .ok { dt := .i32, shape := [2], strides := [1],
            data := [.vi 3, .vi 4] } ∧
    cast_to_dt exStrBad .i32 = .error (.parseError "x" .i32) := by
  constructor
  · have h := (cast_string_tensor_parses exStrPair .i32
      (fun s => (parseIntRust true 32 s).map .vi) ["3", "4"] rfl rfl rfl).1
      (by decide)
    exact h.trans (congrArg Except.ok (by decide))
  · exact (cast_string_tensor_parses exStrBad .i32
      (fun s => (parseIntRust true 32 s).map .vi) ["x"] rfl rfl rfl).2
      [] "x" [] rfl (by simp) (by decide)

lemma flatMap_congr_mem {α β : Type} (l : List α) (f g : α → List β)
    (h : ∀ a ∈ l, f a = g a) : l.flatMap f = l.flatMap g := by
  induction l with
  | nil => rfl
  | cons a as ih =>
      simp only [List.flatMap_cons]
      rw [h a (List.mem_cons_self a as), ih fun x hx => h x (List.mem_cons_of_mem _ hx)]

lemma indicesOf_length (s : List Nat) : (indicesOf s).length = s.prod := by
  induction s with
  | nil => rfl
  | cons d rest ih =>
      simp [indicesOf, List.length_flatMap, Function.comp_def, ih, List.map_const',
        mul_comm]

lemma stride_fold_headD (l : List Nat) (a : Int) (acc : List Int) :
    (l.foldl
        (fun (acc : List Int) (dim : Nat) => (acc.headD 1 * (dim : Int)) :: acc)
        (a :: acc)).headD 0 = a * l.prod := by
  induction l generalizing a acc with
  | nil => simp
  | cons d rest ih =>
      rw [List.foldl_cons, List.headD_cons, ih, List.prod_cons]
      push_cast
      ring

lemma compute_natural_stride_head (d : Nat) (rest : List Nat) :
    (compute_natural_stride_to (d :: rest)).headD 0 = (rest.prod : Int) := by
  rcases rest with _ | ⟨s1, _ | ⟨s2, _ | ⟨s3, _ | ⟨s4, rs⟩⟩⟩⟩
  · rfl
  · simp [compute_natural_stride_to]
  · simp only [compute_natural_stride_to, List.headD_cons, List.prod_cons,
      List.prod_nil]
    push_cast
    ring
  · simp only [compute_natural_stride_to, List.headD_cons, List.prod_cons,
      List.prod_nil]
    push_cast
    ring
  · show ((s1 :: s2 :: s3 :: s4 :: rs).reverse.foldl
        (fun (acc : List Int) (dim : Nat) => (acc.headD 1 * (dim : Int)) :: acc)
        ((1 : Int) :: ([] : List Int))).headD 0 = _
    rw [stride_fold_headD, List.prod_reverse]
    push_cast
    ring

lemma segs_concat (l : List Val) (p : Nat) :
    ∀ (n c : Nat),
      ((List.range n).flatMap fun i => (l.drop (c + i * p)).take p) =
        (l.drop c).take (n * p) := by
  intro n
  induction n with
  | zero => intro c; simp
  | succ m ih =>
      intro c
      rw [List.range_succ, List.flatMap_append, ih c]
      simp only [List.flatMap_cons, List.flatMap_nil, List.append_nil]
      rw [show (m + 1) * p = m * p + p by ring, List.take_add]
      congr 1
      rw [List.drop_drop]

lemma indicesOf_map_getD (rest : List Nat) :
    ∀ (l : List Val) (c : Nat), c + rest.prod ≤ l.length →
      ((indicesOf rest).map fun j => l.getD (c + ravel rest j) default) =
        (l.drop c).take rest.prod := by
  induction rest with
  | nil =>
      intro l c h
      have hc : c < l.length := by simpa using h
      simp only [indicesOf, ravel, Nat.add_zero, List.map_cons, List.map_nil,
        List.prod_nil]
      rw [List.getD_eq_getElem?_getD, List.getElem?_eq_getElem hc]
      rw [List.drop_eq_getElem_cons hc]
      rfl
  | cons e r ih =>
      intro l c h
      simp only [indicesOf, List.map_flatMap, List.map_map]
      have hstep : ∀ i ∈ List.range e,
          ((indicesOf r).map ((fun j => l.getD (c + ravel (e :: r) j) default) ∘ (i :: ·)))
            = (l.drop (c + i * r.prod)).take r.prod := by
        intro i hi
        have hi' : i < e := List.mem_range.mp hi
        have hb : (c + i * r.prod) + r.prod ≤ l.length := by
          have hmul : (i + 1) * r.prod ≤ e * r.prod :=
            Nat.mul_le_mul_right _ hi'
          have hexp : (i + 1) * r.prod = i * r.prod + r.prod := by ring
          have hprod : (e :: r).prod = e * r.prod := by simp
          omega
        have := ih l (c + i * r.prod) hb
        rw [← this]
        apply List.map_congr_left
        intro j _
        simp [ravel, Function.comp]
        ring_nf
      rw [flatMap_congr_mem _ _ _ hstep, segs_concat]
      simp

/-- Extraction of rows `a..a+len` (along axis 0) of a tensor via logical
multi-indices equals the flat sub-segment of its row-major buffer. -/
lemma extract_rows (src : Tensor) (d : Nat) (rest : List Nat) (a len : Nat)
    (hshape : src.shape = d :: rest) (hdata : src.data.length = src.len)
    (hbound : a + len ≤ d) :
    ((indicesOf (src.shape.set 0 len)).map fun idx =>
        tensorGet src (idx.set 0 (idx.getD 0 0 + a)))
      = (src.data.drop (rest.prod * a)).take (rest.prod * len) := by
  rw [hshape]
  have hsets : (d :: rest).set 0 len = len :: rest := rfl
  rw [hsets]
  simp only [indicesOf, List.map_flatMap, List.map_map]
  have hstep : ∀ i ∈ List.range len,
      ((indicesOf rest).map
          ((fun idx => tensorGet src (idx.set 0 (idx.getD 0 0 + a))) ∘ (i :: ·)))
        = (src.data.drop (rest.prod * a + i * rest.prod)).take rest.prod := by
    intro i hi
    have hi' : i < len := List.mem_range.mp hi
    have hb : (rest.prod * a + i * rest.prod) + rest.prod ≤ src.data.length := by
      have hlen : src.data.length = d * rest.prod := by
        rw [hdata]
        simp [Tensor.len, hshape]
      have : (i + a + 1) * rest.prod ≤ d * rest.prod :=
        Nat.mul_le_mul_right _ (by omega)
      have hexp : (i + a + 1) * rest.prod
          = rest.prod * a + i * rest.prod + rest.prod := by ring
      omega
    have := indicesOf_map_getD rest src.data (rest.prod * a + i * rest.prod) hb
    rw [← this]
    apply List.map_congr_left
    intro j _
    simp [tensorGet, ravel, hshape, Function.comp]
    ring_nf
  rw [flatMap_congr_mem _ _ _ hstep, segs_concat]
  rw [Nat.mul_comm len rest.prod]

lemma shapesAgreeExcept_set (axis : Nat) (s : List Nat) (v : Nat) :
    Tensor.shapesAgreeExcept axis s (s.set axis v) = true := by
  simp only [Tensor.shapesAgreeExcept, List.length_set, beq_self_eq_true,
    Bool.true_and, List.all_eq_true]
  intro ix hix
  rcases eq_or_ne ix axis with h | h
  · simp [h]
  · have hgd : (s.set axis v)[ix]? = s[ix]? := List.getElem?_set_ne (Ne.symm h)
    simp [List.getD_eq_getElem?_getD, hgd]

/-- Lemma: `assign_slice` succeeds (with `assign_slice_from_resolved`) when all
four precondition checks pass. -/
lemma assign_slice_ok (t src : Tensor) (r r' : Nat × Nat) (axis : Nat)
    (hdt : src.dt = t.dt)
    (hlen : r'.2 - r'.1 = r.2 - r.1)
    (hsh : Tensor.shapesAgreeExcept axis t.shape src.shape = true)
    (hb2 : r'.2 ≤ src.shape.getD axis 0) (hb1 : r.2 ≤ t.shape.getD axis 0) :
    Tensor.assign_slice t r src r' axis =
      .ok (Tensor.assign_slice_from_resolved t r src r' axis) := by
  unfold Tensor.assign_slice
  rw [if_neg (by simp [hdt]), if_neg (by omega), if_neg (by simp [hsh]),
    if_neg (by omega), if_neg (by omega)]

/-- C1: for a trivially copyable kind, `assign_slice` with the tensor
itself as both destination and source and in-bounds (possibly
overlapping) ranges along axis 0 produces exactly the same result as
first copying the source range to a temporary buffer and then assigning
from the temporary — the raw-pointer path uses the overlap-safe
`ptr::copy` for the aliased case, whose snapshot semantics coincide with
the temporary-buffer procedure. -/
theorem assign_slice_self_overlap (t : Tensor) (r r' : Nat × Nat)
    (hc : t.dt.is_copy = true)
    (hnat : t.strides = compute_natural_stride_to t.shape)
    (hdata : t.data.length = t.len)
    (h1 : r.1 ≤ r.2) (h2 : r'.1 ≤ r'.2)
    (hlen : r.2 - r.1 = r'.2 - r'.1)
    (hb1 : r.2 ≤ t.shape.headD 0) (hb2 : r'.2 ≤ t.shape.headD 0)
    (hrank : 0 < t.rank) :
    Tensor.assign_slice t r t r' 0 = assign_slice_via_temp t r t r' 0 := by
  obtain ⟨d, rest, hshape⟩ : ∃ d rest, t.shape = d :: rest := by
    rcases hsh : t.shape with _ | ⟨d, rest⟩
    · rw [Tensor.rank, hsh] at hrank
      exact absurd hrank (by simp)
    · exact ⟨d, rest, rfl⟩
  have hgetD : t.shape.getD 0 0 = d := by rw [hshape]; rfl
  have hheadD : t.shape.headD 0 = d := by rw [hshape]; rfl
  -- the element stride of axis 0 under natural strides is the row size
  have hstride : (t.strides.headD 0).toNat = rest.prod := by
    rw [hnat, hshape, compute_natural_stride_head]
    exact Int.toNat_natCast _
  set p := rest.prod with hp
  -- left side: the raw `ptr::copy` path
  have hL : Tensor.assign_slice t r t r' 0 =
      .ok { t with data := overwriteAt t.data (p * r.1) ((t.data.drop (p * r'.1)).take (p * (r.2 - r.1))) } := by
    rw [assign_slice_ok t t r r' 0 rfl hlen.symm (shapesAgreeExcept_refl 0 t.shape)
      (by omega) (by omega)]
    unfold Tensor.assign_slice_from_resolved
    rw [if_pos ⟨rfl, hc⟩]
    simp only [hstride]
  -- right side: slice to a temporary tensor, then assign from it
  have htmpdata : ((indicesOf (t.shape.set 0 (r'.2 - r'.1))).map fun idx =>
        tensorGet t (idx.set 0 (idx.getD 0 0 + r'.1)))
      = (t.data.drop (p * r'.1)).take (p * (r'.2 - r'.1)) := by
    have := extract_rows t d rest r'.1 (r'.2 - r'.1) hshape hdata (by omega)
    rw [this]
  have hb2' : r'.2 - r'.1 ≤
      ({ dt := t.dt, shape := t.shape.set 0 (r'.2 - r'.1),
         strides := compute_natural_stride_to (t.shape.set 0 (r'.2 - r'.1)),
         data := (indicesOf (t.shape.set 0 (r'.2 - r'.1))).map fun idx =>
           tensorGet t (idx.set 0 (idx.getD 0 0 + r'.1)) } : Tensor).shape.getD 0 0 := by
    show r'.2 - r'.1 ≤ (t.shape.set 0 (r'.2 - r'.1)).getD 0 0
    rw [hshape]
    exact Nat.le_refl _
  have hR : assign_slice_via_temp t r t r' 0 =
      .ok { t with data := overwriteAt t.data (p * r.1) ((t.data.drop (p * r'.1)).take (p * (r.2 - r.1))) } := by
    show Tensor.assign_slice t r
        { dt := t.dt, shape := t.shape.set 0 (r'.2 - r'.1),
          strides := compute_natural_stride_to (t.shape.set 0 (r'.2 - r'.1)),
          data := (indicesOf (t.shape.set 0 (r'.2 - r'.1))).map fun idx =>
            tensorGet t (idx.set 0 (idx.getD 0 0 + r'.1)) }
        (0, r'.2 - r'.1) 0 = _
    rw [assign_slice_ok t
        { dt := t.dt, shape := t.shape.set 0 (r'.2 - r'.1),
          strides := compute_natural_stride_to (t.shape.set 0 (r'.2 - r'.1)),
          data := (indicesOf (t.shape.set 0 (r'.2 - r'.1))).map fun idx =>
            tensorGet t (idx.set 0 (idx.getD 0 0 + r'.1)) }
        r (0, r'.2 - r'.1) 0 rfl
        (by show r'.2 - r'.1 - 0 = r.2 - r.1; omega)
        (shapesAgreeExcept_set 0 t.shape (r'.2 - r'.1)) hb2' (by omega)]
    unfold Tensor.assign_slice_from_resolved
    rw [if_pos ⟨rfl, hc⟩]
    simp only [hstride, Nat.mul_zero, List.drop_zero, htmpdata]
    rw [List.take_take, hlen, min_self]
  rw [hL, hR]

/-- C1 witness: self-assigning rows `[0,3)` of `[10,20,30,40,50]` into
rows `[1,4)` (overlapping ranges) agrees with the temporary-buffer
procedure; both yield `[10,10,20,30,50]`. -/
theorem assign_slice_self_overlap_witness :
    Tensor.assign_slice exI8Five (1, 4) exI8Five (0, 3) 0 =
      assign_slice_via_temp exI8Five (1, 4) exI8Five (0, 3) 0 ∧
    Tensor.assign_slice exI8Five (1, 4) exI8Five (0, 3) 0 =
      .ok { dt := .i8, shape := [5], strides := [1],
            data := [.vi 10, .vi 10, .vi 20, .vi 30, .vi 50] } := by
  constructor
  · exact assign_slice_self_overlap exI8Five (1, 4) (0, 3) rfl rfl rfl
      (by decide) (by decide) (by decide) (by decide) (by decide) (by decide)
  · rfl

end Tract
